import Mathlib

/-!
Shallow embedding of the glyph repository.

Part 1 embeds `src/glyph/application.py`: the `GPRunner` evolutionary-loop
state machine, the `random_state` context manager (inlined at its two use
sites, exactly as the `contextmanager` expands), the `Application` harness
with its `_update`/`checkpoint`/`run` logic, and the `safe`/`load`
checkpoint serialization glue.  The external DEAP operators
(`create_population`, `algorithm.evolve`) and Python's global
pseudo-random-number generator are abstracted as type parameters `Pop`
(populations) and `R` (generator states) together with function parameters;
the deap `ParetoFront` is modelled by the sequence of populations it has
been updated with, and the deap `Logbook` by the list of `gen` fields of
its records, which is all the claims refer to.  Python's `%` raises
`ZeroDivisionError` on a zero right operand; `Application._update` is
therefore modelled in `Except`.  The `while` loop of `Application.run` is
modelled with fuel `num_generations + 1`, which is an upper bound on the
number of iterations because every iteration raises `step_count` by one
while `step_count < num_generations` holds on entry.

Part 2 embeds `src/examples/control/control_problem.py`: the
`harmonic_oscillator` and `fitzhugh_nagumo` derivative factories, the
`integrate`/`odeint` wrappers around the external `scipy.integrate.ode`
stepper (abstracted as a step function returning `none` when
`ode.successful()` is false), and the coupling-matrix generators.  Float
arithmetic is modelled over `ℚ` (the statements proved are
operation-for-operation identities, valid in any semantics of the same
expressions); the float `NaN` needed by `integrate` is modelled by `none`
in `Option ℚ`.  Matrices are modelled as entry functions `Nat → Nat → Int`
(all entries produced by the generators are exact small integers); the
`networkx` cycle graph is modelled by its adjacency matrix.
-/

namespace Glyph

/-- Fields of the argparse namespace used by `Application.run` and
`Application._update`.  `pop_size` and `num_generations` are produced by
`utils.argparse.non_negative_int`, hence naturals.  `checkpoint_frequency`
is `some k` when the attribute is the Python int `k` and `none` when it is
not an int (the `isinstance(..., int)` test in `valid_checkpointing`). -/
structure Args where
  pop_size : Nat
  num_generations : Nat
  seed : Nat
  checkpoint_frequency : Option Int
deriving DecidableEq

/-- State of a `GPRunner` instance.  `halloffame` records the populations the
deap `ParetoFront` has been updated with since it was (re)created in
`init()`; `logbook` records the `gen` field of each `logbook.record(...)`
call; `assessed` is the trace of populations passed to the assessment
runner; `prev_state` and `tmp_state` are the `_prev_state` / `_tmp_state`
attributes used by `random_state` (absent before first assignment). -/
structure GPState (Pop R : Type) where
  population : Pop
  step_count : Nat
  halloffame : List Pop
  logbook : List Nat
  assessed : List Pop
  mstats : Bool
  prev_state : Option R
  tmp_state : Option R
deriving DecidableEq

/-- `GPRunner._update`: run the assessment runner on the current population,
update the hall of fame with it, create `mstats` if absent, and record a
logbook entry with `gen=self.step_count`. -/
def GPRunner.update {Pop R : Type} (s : GPState Pop R) : GPState Pop R :=
  { s with assessed := s.assessed ++ [s.population],
           halloffame := s.halloffame ++ [s.population],
           mstats := true,
           logbook := s.logbook ++ [s.step_count] }

/-- `GPRunner.init(pop_size)`: fresh hall of fame and logbook, `mstats =
None`, `step_count = 0`; then, inside `with random_state(self)`, create the
population; finally `_update()`.  The `random_state` context manager is
inlined: on entry `_tmp_state` is set to the global generator state and the
global generator is set to `_prev_state` (or left unchanged when that
attribute is absent); on exit `_prev_state` receives the global state and
the global generator is restored from `_tmp_state`.  `create_population`
abstracts `IndividualClass.create_population`, consuming generator state;
`g` is the global generator state before the call and the second component
of the result is the global generator state after the call. -/
def GPRunner.init {Pop R : Type} (create_population : Nat → R → Pop × R)
    (pop_size : Nat) (s : GPState Pop R) (g : R) : GPState Pop R × R :=
  let s0 : GPState Pop R :=
    { s with halloffame := [], logbook := [], mstats := false, step_count := 0 }
  let pr := create_population pop_size (s0.prev_state.getD g)
  let s1 : GPState Pop R :=
    { s0 with tmp_state := some g, population := pr.1, prev_state := some pr.2 }
  (GPRunner.update s1, s1.tmp_state.getD pr.2)

/-- `GPRunner.step()`: inside `with random_state(self)` evolve the
population, then increment `step_count` and `_update()`.  `evolve`
abstracts `self.algorithm.evolve`. -/
def GPRunner.step {Pop R : Type} (evolve : Pop → R → Pop × R)
    (s : GPState Pop R) (g : R) : GPState Pop R × R :=
  let pr := evolve s.population (s.prev_state.getD g)
  let s1 : GPState Pop R :=
    { s with tmp_state := some g, population := pr.1, prev_state := some pr.2 }
  let s2 : GPState Pop R := { s1 with step_count := s1.step_count + 1 }
  (GPRunner.update s2, s1.tmp_state.getD pr.2)

/-- Invariant of `GPRunner` established by `init()` and preserved by
`step()`: the logbook holds `step_count + 1` records, the latest one with
`gen = step_count`, and the assessment runner and the hall of fame have
last been applied to / updated with the current population. -/
def GPInv {Pop R : Type} (s : GPState Pop R) : Prop :=
  s.logbook.length = s.step_count + 1 ∧
  s.logbook.getLast? = some s.step_count ∧
  s.assessed.getLast? = some s.population ∧
  s.halloffame.getLast? = some s.population

/-- `safe(file_name, **kwargs)`: dump the keyword-argument mapping to the
file.  The file system is an association list from names to stored values;
a write shadows any previous file of the same name.  The `dill`
serialization of the external library is modelled as exact storage. -/
def safe {α : Type} (fs : List (String × α)) (file_name : String) (kwargs : α) :
    List (String × α) :=
  (file_name, kwargs) :: fs

/-- `load(file_name)`: read back data saved with `safe()`; `none` models the
`FileNotFoundError` of a missing file. -/
def load {α : Type} (fs : List (String × α)) (file_name : String) : Option α :=
  (fs.find? (fun e => e.1 == file_name)).map (fun e => e.2)

/-- The keyword arguments passed by `Application.checkpoint()` to `safe`:
`args`, `runner`, `random_state=random.getstate()`, `pareto_fronts`. -/
structure Checkpoint (Pop R : Type) where
  args : Args
  runner : GPState Pop R
  random_state : R
  pareto_fronts : List (List Pop)
deriving DecidableEq

/-- State of an `Application` together with the ambient global state it
interacts with: `grng` is the state of Python's global `random` generator
and `files` is the file system receiving checkpoints. -/
structure AppState (Pop R : Type) where
  args : Args
  runner : GPState Pop R
  checkpoint_file : Option String
  pareto_fronts : List (List Pop)
  initialized : Bool
  grng : R
  files : List (String × Checkpoint Pop R)
deriving DecidableEq

/-- Python exceptions raised by the embedded code. -/
inductive PyErr : Type where
  | zeroDivisionError : PyErr
  | runtimeError : PyErr
deriving DecidableEq

/-- `Application.valid_checkpointing`: the checkpoint file is not `None` and
`checkpoint_frequency` is an int. -/
def App.valid_checkpointing {Pop R : Type} (s : AppState Pop R) : Bool :=
  s.checkpoint_file.isSome && s.args.checkpoint_frequency.isSome

/-- `Application.checkpoint()`: `safe` the current args, runner, global
random state and pareto fronts to the checkpoint file.  The `none` branch
is unreachable from `_update`, which guards the call with
`valid_checkpointing`. -/
def App.checkpoint {Pop R : Type} (s : AppState Pop R) : AppState Pop R :=
  match s.checkpoint_file with
  | some f =>
    { s with files := safe s.files f ⟨s.args, s.runner, s.grng, s.pareto_fronts⟩ }
  | none => s

/-- `Application._update()`: append a copy of the hall of fame to
`pareto_fronts`, then checkpoint when `valid_checkpointing` holds and
`step_count % checkpoint_frequency == 0`.  Python's `%` raises
`ZeroDivisionError` when the frequency is the int `0`; for a nonzero
frequency `Int.fmod` is Python's floored `%`. -/
def App.update {Pop R : Type} (s : AppState Pop R) : Except PyErr (AppState Pop R) :=
  let s1 : AppState Pop R :=
    { s with pareto_fronts := s.pareto_fronts ++ [s.runner.halloffame] }
  if App.valid_checkpointing s1 then
    match s1.args.checkpoint_frequency with
    | some k =>
      if k = 0 then .error .zeroDivisionError
      else if Int.fmod (s1.runner.step_count : Int) k = 0 then .ok (App.checkpoint s1)
      else .ok s1
    | none => .ok s1
  else .ok s1

/-- The `while` loop of `Application.run`: while `step_count <
num_generations` and the break condition is false, `gp_runner.step()`,
`self._update()`, `iterations += 1`.  `fuel` bounds the number of
iterations; each iteration raises `step_count` by one, so any fuel
exceeding `num_generations - step_count` is adequate and the `fuel = 0`
base case is never reached from `App.run`. -/
def App.runLoop {Pop R : Type} (evolve : Pop → R → Pop × R)
    (brk : AppState Pop R → Bool) :
    Nat → AppState Pop R → Nat → Except PyErr (AppState Pop R × Nat)
  | 0, s, its => .ok (s, its)
  | fuel + 1, s, its =>
    if s.runner.step_count < s.args.num_generations ∧ brk s = false then
      let pr := GPRunner.step evolve s.runner s.grng
      let s1 : AppState Pop R := { s with runner := pr.1, grng := pr.2 }
      match App.update s1 with
      | .error e => .error e
      | .ok s2 => App.runLoop evolve brk fuel s2 (its + 1)
    else .ok (s, its)

/-- `Application.run(break_condition)`: return `0` at once when `pop_size <
1`; otherwise, when not yet initialized, seed the global random generator
with `args.seed` (`seedFn` abstracts `random.seed`), `gp_runner.init`,
`self._update()` and count one iteration; then run the evolution loop. -/
def App.run {Pop R : Type} (evolve : Pop → R → Pop × R)
    (create_population : Nat → R → Pop × R) (seedFn : Nat → R)
    (brk : AppState Pop R → Bool) (s : AppState Pop R) :
    Except PyErr (AppState Pop R × Nat) :=
  if s.args.pop_size < 1 then .ok (s, 0)
  else if s.initialized then
    App.runLoop evolve brk (s.args.num_generations + 1) s 0
  else
    let s0 : AppState Pop R := { s with grng := seedFn s.args.seed }
    let pr := GPRunner.init create_population s0.args.pop_size s0.runner s0.grng
    let s1 : AppState Pop R := { s0 with runner := pr.1, grng := pr.2 }
    match App.update s1 with
    | .error e => .error e
    | .ok s2 => App.runLoop evolve brk (s.args.num_generations + 1) s2 1

/-- `Application.from_checkpoint(file_name)`: load the checkpoint, build an
application from the saved args and runner with the loaded file as
checkpoint file (`__init__` passes the already-built namespace through
`to_argparse_namespace` unchanged and starts with empty `pareto_fronts`),
overwrite `pareto_fronts` with the saved ones, mark it initialized, and
restore the saved global random state. -/
def Application.from_checkpoint {Pop R : Type}
    (fs : List (String × Checkpoint Pop R)) (f : String) :
    Option (AppState Pop R) :=
  (load fs f).map (fun cp =>
    { args := cp.args, runner := cp.runner, checkpoint_file := some f,
      pareto_fronts := cp.pareto_fronts, initialized := true,
      grng := cp.random_state, files := fs })

/-! Part 2: `src/examples/control/control_problem.py`. -/

/-- `harmonic_oscillator(actuator, omega)`: the returned derivative
`dy(t, y, *args) = [y[1], -(omega ** 2) * y[0] + actuator(*y, *args)]`.
The actuator receives the unpacked state followed by the extra arguments,
modelled as `actuator (y ++ args)`. -/
def harmonic_oscillator (actuator : List ℚ → ℚ) (omega : ℚ) :
    ℚ → List ℚ → List ℚ → List ℚ :=
  fun _t y args =>
    [y.getD 1 0, -(omega ^ 2) * y.getD 0 0 + actuator (y ++ args)]

/-- `fitzhugh_nagumo(actuator, sensor, a, b, tau, A)`: raise `RuntimeError`
at construction when `tau == 0.0`; otherwise return the derivative
`dy(t, y, *args)` with `y` split into halves `y0, y1`,
`dy0 = y0 - y0 ** 3 / 3.0 - y1` and
`dy1 = (y0 + a - b * y1) / tau + A.dot(y1) + actuator(*sensor(y), *args)`
(element-wise over the halves).  `Adot` abstracts the matrix-vector product
`A.dot`.  The division of the returned derivative is guarded: `dy` yields
`none` in place of an undefined division by a zero `tau`. -/
def fitzhugh_nagumo (actuator : List ℚ → ℚ) (sensor : List ℚ → List ℚ)
    (a b tau : ℚ) (Adot : List ℚ → List ℚ) :
    Except PyErr (ℚ → List ℚ → List ℚ → Option (List ℚ)) :=
  if tau = 0 then .error .runtimeError
  else .ok (fun _t y args =>
    let half := y.length / 2
    let y0 := y.take half
    let y1 := y.drop half
    let dy0 := (y0.zip y1).map (fun p => p.1 - p.1 ^ 3 / 3 - p.2)
    if tau = 0 then none
    else
      let dy1 := (((y0.zip y1).map (fun p => (p.1 + a - b * p.2) / tau)).zip
          (Adot y1)).map (fun p => p.1 + p.2 + actuator (sensor y ++ args))
      some (dy0 ++ dy1))

/-- The stepping of `odeint` after the initial yield: starting from state
`y` at abscissa `xc`, call `ode.integrate` towards each remaining abscissa
and yield the new state, returning early (no further yields) as soon as
`ode.successful()` is false.  `step y xc xn` abstracts one
`ode.integrate(xn)` call from state `y` at `xc`; `none` models an
unsuccessful integrator. -/
def odeintGo (step : List (Option ℚ) → ℚ → ℚ → Option (List (Option ℚ))) :
    ℚ → List (Option ℚ) → List ℚ → List (List (Option ℚ))
  | _, _, [] => []
  | xc, y, xn :: xs =>
    match step y xc xn with
    | none => []
    | some y1 => y1 :: odeintGo step xn y1 xs

/-- `odeint(dy, yinit, x)`: set the initial value at `x[0]`, yield it, then
step through the remaining abscissae (an empty `x` raises `IndexError` in
the source; the claims assume `x` non-empty). -/
def odeint (step : List (Option ℚ) → ℚ → ℚ → Option (List (Option ℚ)))
    (yinit : List (Option ℚ)) (x : List ℚ) : List (List (Option ℚ)) :=
  match x with
  | [] => []
  | x0 :: rest => yinit :: odeintGo step x0 yinit rest

/-- `np.vstack(list(res)).T` for `res` a list of state vectors of dimension
`d`: row `i` of the transpose collects component `i` of every yielded
state. -/
def transposeD (d : Nat) (rows : List (List (Option ℚ))) :
    List (List (Option ℚ)) :=
  (List.range d).map (fun i => rows.map (fun r => r.getD i none))

/-- `integrate(dy, yinit, x)`: stack the yields of `odeint` into a
`d × len(x)` array; when fewer than `len(x)` states were yielded (early
stop), replace the whole array by NaN (`none`) of shape `d × len(x)`; when
the system is one-dimensional return the single row flat. -/
def integrate (step : List (Option ℚ) → ℚ → ℚ → Option (List (Option ℚ)))
    (yinit : List (Option ℚ)) (x : List ℚ) :
    Sum (List (Option ℚ)) (List (List (Option ℚ))) :=
  let res := odeint step yinit x
  let d := yinit.length
  let y := if res.length ≠ x.length then
      List.replicate d (List.replicate x.length (none : Option ℚ))
    else transposeD d res
  if d = 1 then Sum.inl (y.headD []) else Sum.inr y

/-- Check that the result of `integrate` has exactly `xlen` columns (for a
flat result, `xlen` entries). -/
def resultCols (xlen : Nat) :
    Sum (List (Option ℚ)) (List (List (Option ℚ))) → Bool
  | Sum.inl v => v.length == xlen
  | Sum.inr m => m.all (fun r => r.length == xlen)

/-- Check that every entry of the result of `integrate` is NaN (`none`). -/
def resultAllNaN : Sum (List (Option ℚ)) (List (List (Option ℚ))) → Bool
  | Sum.inl v => v.all (fun e => e == none)
  | Sum.inr m => m.all (fun r => r.all (fun e => e == none))

/-- `global_coupling(N)`: `np.ones((N, N))` with `-1.0 * float(N - 1)` on
the diagonal. -/
def global_coupling (N : Nat) (i j : Nat) : Int :=
  if i = j then -((N : Int) - 1) else 1

/-- The 2 × 2 block `a = np.array([[-1, 1], [1, -1]])` of
`pairwise_coupling`. -/
def pairBlock (r s : Nat) : Int := if r = s then -1 else 1

/-- Entry of the identity matrix `np.eye(N / 2)` (indices in range). -/
def eyeEntry (p q : Nat) : Int := if p = q then 1 else 0

/-- Entry `(i, j)` of `np.kron(np.eye(N / 2), a)` for the 2 × 2 block `a`:
`eye[i // 2][j // 2] * a[i % 2][j % 2]`. -/
def kron_eye_pair (i j : Nat) : Int :=
  eyeEntry (i / 2) (j / 2) * pairBlock (i % 2) (j % 2)

/-- `pairwise_coupling(N)`: `assert N % 2 == 0` (modelled by `none` on
failure), then `np.kron(np.eye(int(N / 2)), a)`. -/
def pairwise_coupling (N : Nat) : Option (Nat → Nat → Int) :=
  if N % 2 = 0 then some (fun i j => kron_eye_pair i j) else none

/-- Adjacency matrix of `networkx.cycle_graph(N)`: nodes `0, …, N - 1` with
an (undirected, simple) edge between consecutive nodes modulo `N`; a single
node has no self loop. -/
def cycleAdj (N i j : Nat) : Int :=
  if i ≠ j ∧ ((i + 1) % N = j ∨ (j + 1) % N = i) then 1 else 0

/-- Degree of node `i` in the cycle graph, as the row sum of the adjacency
matrix. -/
def cycleDeg (N i : Nat) : Int := ∑ j ∈ Finset.range N, cycleAdj N i j

/-- `networkx.linalg.laplacian_matrix` of the cycle graph: degree on the
diagonal, minus adjacency off it. -/
def cycleLaplacian (N i j : Nat) : Int :=
  if i = j then cycleDeg N i else -cycleAdj N i j

/-- `circular_array_coupling(N)`:
`-1.0 * networkx.linalg.laplacian_matrix(networkx.cycle_graph(N))`. -/
def circular_array_coupling (N : Nat) (i j : Nat) : Int :=
  -1 * cycleLaplacian N i j

/-- Sum of row `i` of an `N × N` coupling matrix. -/
def rowSum (N : Nat) (A : Nat → Nat → Int) (i : Nat) : Int :=
  ∑ j ∈ Finset.range N, A i j

/-- Number of coupled neighbours of node `i`: off-diagonal nonzero entries
of row `i`. -/
def neighbourCount (N : Nat) (A : Nat → Nat → Int) (i : Nat) : Nat :=
  ((Finset.range N).filter (fun j => j ≠ i ∧ A i j ≠ 0)).card

/-! Concrete instantiations used by witnesses and counterexamples: the
population and generator-state types are both `Nat`, population creation
and evolution consume one unit of generator state. -/

/-- Concrete `create_population` for witnesses. -/
def cpW : Nat → Nat → Nat × Nat := fun n g => (n, g + 1)

/-- Concrete `algorithm.evolve` for witnesses. -/
def evW : Nat → Nat → Nat × Nat := fun p g => (p + 1, g + 3)

/-- Concrete `random.seed` for witnesses. -/
def sfW : Nat → Nat := fun n => n + 100

/-- Concrete break condition (the default `lambda app: False`). -/
def brkW : AppState Nat Nat → Bool := fun _ => false

/-- Concrete checkpoint file name. -/
def cpFileW : String := "cp"

/-- A runner state as left by a previous update (satisfies `GPInv`). -/
def gpW : GPState Nat Nat := ⟨0, 0, [0], [0], [0], true, none, none⟩

/-- A freshly constructed runner state. -/
def gpW0 : GPState Nat Nat := ⟨0, 0, [], [], [], false, none, none⟩

/-- Arguments with the default checkpoint frequency 1. -/
def argsW : Args := ⟨2, 3, 5, some 1⟩

/-- Arguments with checkpoint frequency the int 2. -/
def argsW2 : Args := ⟨2, 3, 5, some 2⟩

/-- Arguments with checkpoint frequency the int 0. -/
def argsW0 : Args := ⟨2, 3, 5, some 0⟩

/-- A not-yet-initialized application with the default frequency. -/
def appW : AppState Nat Nat := ⟨argsW, gpW0, some cpFileW, [], false, 0, []⟩

/-- An initialized application with frequency 2. -/
def appW2 : AppState Nat Nat := ⟨argsW2, gpW, some cpFileW, [], true, 0, []⟩

/-- The result of `App.update` on `appW2`: the hall of fame is appended to
the pareto fronts and one checkpoint is written. -/
def appUpd2 : AppState Nat Nat :=
  ⟨argsW2, gpW, some cpFileW, [[0]], true, 0, [(cpFileW, ⟨argsW2, gpW, 0, [[0]]⟩)]⟩

/-- An initialized application with frequency the int 0. -/
def appW0 : AppState Nat Nat := ⟨argsW0, gpW, some cpFileW, [], true, 0, []⟩

/-- A not-yet-initialized application with frequency the int 0. -/
def appW0run : AppState Nat Nat := ⟨argsW0, gpW0, some cpFileW, [], false, 0, []⟩

/-- A not-yet-initialized application with `pop_size = 0`. -/
def appP0 : AppState Nat Nat := ⟨⟨0, 3, 5, some 1⟩, gpW0, some cpFileW, [], false, 0, []⟩

/-- Concrete (always successful) integrator step for witnesses. -/
def stepW : List (Option ℚ) → ℚ → ℚ → Option (List (Option ℚ)) :=
  fun y _ _ => some y

/-- Concrete actuator for witnesses: the sum of its arguments. -/
def sumW : List ℚ → ℚ := fun l => l.foldr (fun u v => u + v) 0

/-- Concrete sensor for witnesses (`toolz.identity`). -/
def sensW : List ℚ → List ℚ := fun l => l

/-- Concrete coupling action for witnesses. -/
def AdotW : List ℚ → List ℚ := fun l => l

/-! Theorems. -/

/-- C2: every call to `GPRunner.init` or `GPRunner.step` leaves the global
random generator state exactly as it found it, while the runner's own
stream `_prev_state` is advanced by the stochastic operator that ran inside
the `random_state` block (population creation from `_prev_state`, or
evolution from `_prev_state`, each defaulting to the current global state
when `_prev_state` is not yet set). -/
theorem claim_C2_random_state_frame {Pop R : Type}
    (create_population : Nat → R → Pop × R) (evolve : Pop → R → Pop × R)
    (pop_size : Nat) (s : GPState Pop R) (g : R) :
    (GPRunner.init create_population pop_size s g).2 = g ∧
    (GPRunner.step evolve s g).2 = g ∧
    (GPRunner.init create_population pop_size s g).1.prev_state =
      some (create_population pop_size (s.prev_state.getD g)).2 ∧
    (GPRunner.step evolve s g).1.prev_state =
      some (evolve s.population (s.prev_state.getD g)).2 :=
  ⟨rfl, rfl, rfl, rfl⟩

/-- C3: after `GPRunner.init` the step count is `0` and the runner invariant
holds; every `GPRunner.step` raises the step count by exactly one and
preserves the invariant: the assessment runner and the hall of fame have
been applied to / updated with the current population, the latest logbook
record has `gen` equal to the current step count, and the logbook holds
`step_count + 1` records. -/
theorem claim_C3_step_invariants {Pop R : Type}
    (create_population : Nat → R → Pop × R) (evolve : Pop → R → Pop × R)
    (pop_size : Nat) (s : GPState Pop R) (g : R) (h : GPInv s) :
    ((GPRunner.init create_population pop_size s g).1.step_count = 0 ∧
      GPInv (GPRunner.init create_population pop_size s g).1) ∧
    ((GPRunner.step evolve s g).1.step_count = s.step_count + 1 ∧
      GPInv (GPRunner.step evolve s g).1) := by
  obtain ⟨h1, _h2, _h3, _h4⟩ := h
  refine ⟨⟨rfl, rfl, rfl, List.getLast?_concat _, List.getLast?_concat _⟩,
    ⟨rfl, ?_, List.getLast?_concat _, List.getLast?_concat _, List.getLast?_concat _⟩⟩
  show (s.logbook ++ [s.step_count + 1]).length = s.step_count + 1 + 1
  simp [h1]

/-- Witness for C3 at a concrete runner state satisfying the invariant. -/
theorem claim_C3_witness :
    ((GPRunner.init cpW 3 gpW 7).1.step_count = 0 ∧
      GPInv (GPRunner.init cpW 3 gpW 7).1) ∧
    ((GPRunner.step evW gpW 7).1.step_count = gpW.step_count + 1 ∧
      GPInv (GPRunner.step evW gpW 7).1) :=
  claim_C3_step_invariants cpW evW 3 gpW 7 ⟨rfl, rfl, rfl, rfl⟩

/-- C6: the derivative returned by `harmonic_oscillator(f, omega)` satisfies
`dy(t, y, *args) = [y[1], -omega^2 * y[0] + f(*y, *args)]` for every state
vector of length at least 2, and does not depend on `t`. -/
theorem claim_C6_harmonic (f : List ℚ → ℚ) (omega t t2 : ℚ)
    (y args : List ℚ) (h : 2 ≤ y.length) :
    harmonic_oscillator f omega t y args =
      [y.get ⟨1, by omega⟩, -(omega ^ 2) * y.get ⟨0, by omega⟩ + f (y ++ args)] ∧
    harmonic_oscillator f omega t y args = harmonic_oscillator f omega t2 y args := by
  refine ⟨?_, rfl⟩
  have h1 : (1 : Nat) < y.length := by omega
  have h0 : (0 : Nat) < y.length := by omega
  show [y.getD 1 0, -(omega ^ 2) * y.getD 0 0 + f (y ++ args)] = _
  rw [List.getD_eq_getElem y 0 h1, List.getD_eq_getElem y 0 h0]
  simp [List.get_eq_getElem]

/-- Witness for C6 at `omega = 2`, `y = [1, 5]`, `args = [3]`. -/
theorem claim_C6_witness :
    harmonic_oscillator sumW 2 0 [1, 5] [3] =
      [([1, 5] : List ℚ).get ⟨1, by simp⟩,
        -((2 : ℚ) ^ 2) * ([1, 5] : List ℚ).get ⟨0, by simp⟩ + sumW ([1, 5] ++ [3])] ∧
    harmonic_oscillator sumW 2 0 [1, 5] [3] = harmonic_oscillator sumW 2 9 [1, 5] [3] :=
  ⟨(claim_C6_harmonic sumW 2 0 9 [1, 5] [3] (by simp)).1,
   (claim_C6_harmonic sumW 2 0 9 [1, 5] [3] (by simp)).2⟩

/-- C8: `fitzhugh_nagumo` raises `RuntimeError` at construction exactly when
`tau == 0.0`; for every nonzero `tau` it returns a derivative whose
division by `tau` is always defined. -/
theorem claim_C8_fhn (act : List ℚ → ℚ) (sens : List ℚ → List ℚ)
    (a b tau : ℚ) (Adot : List ℚ → List ℚ) (t : ℚ) (y args : List ℚ) :
    (fitzhugh_nagumo act sens a b tau Adot = .error .runtimeError ↔ tau = 0) ∧
    (tau ≠ 0 →
      Except.map (fun dy => (dy t y args).isSome)
        (fitzhugh_nagumo act sens a b tau Adot) = .ok true) := by
  by_cases htau : tau = 0
  · subst htau
    exact ⟨by simp [fitzhugh_nagumo], fun hne => absurd rfl hne⟩
  · refine ⟨by simp [fitzhugh_nagumo, htau], fun _ => ?_⟩
    simp [fitzhugh_nagumo, htau, Except.map]

/-- Witness for C8 at `tau = 4`. -/
theorem claim_C8_witness :
    (fitzhugh_nagumo sumW sensW 1 2 4 AdotW = .error .runtimeError ↔ (4 : ℚ) = 0) ∧
    Except.map (fun dy => (dy 0 [1, 2] []).isSome)
      (fitzhugh_nagumo sumW sensW 1 2 4 AdotW) = .ok true :=
  ⟨(claim_C8_fhn sumW sensW 1 2 4 AdotW 0 [1, 2] []).1,
   (claim_C8_fhn sumW sensW 1 2 4 AdotW 0 [1, 2] []).2 (by norm_num)⟩

/-- C10: `pairwise_coupling(N)` fails its assertion exactly when `N` is odd;
for even `N` the assertion branch is unreachable and the result is
`kron(eye(N / 2), [[-1, 1], [1, -1]])`, a block-diagonal matrix that is
zero across distinct 2-blocks and equals the 2 × 2 coupling block within a
block. -/
theorem claim_C10_pairwise (N : Nat) :
    (pairwise_coupling N = none ↔ N % 2 ≠ 0) ∧
    (N % 2 = 0 →
      pairwise_coupling N = some (fun i j => kron_eye_pair i j) ∧
      ∀ i j, i < N → j < N →
        (i / 2 ≠ j / 2 → kron_eye_pair i j = 0) ∧
        (i / 2 = j / 2 → kron_eye_pair i j = pairBlock (i % 2) (j % 2))) := by
  constructor
  · by_cases h : N % 2 = 0 <;> simp [pairwise_coupling, h]
  · intro h
    refine ⟨by simp [pairwise_coupling, h], fun i j _ _ => ⟨fun hne => ?_, fun he => ?_⟩⟩
    · simp [kron_eye_pair, eyeEntry, hne]
    · simp [kron_eye_pair, eyeEntry, he]

/-- C9: for non-empty `x`, `integrate` returns exactly one column per
element of `x`; when the stepper stops early every entry of the result is
NaN rather than a cut-off result; the result is a flat vector exactly when
the system is one-dimensional. -/
theorem claim_C9_integrate
    (step : List (Option ℚ) → ℚ → ℚ → Option (List (Option ℚ)))
    (yinit : List (Option ℚ)) (x : List ℚ) (_h : x ≠ []) :
    resultCols x.length (integrate step yinit x) = true ∧
    ((odeint step yinit x).length ≠ x.length →
      resultAllNaN (integrate step yinit x) = true) ∧
    ((integrate step yinit x).isLeft = true ↔ yinit.length = 1) := by
  have hdef : integrate step yinit x =
      (if yinit.length = 1
        then Sum.inl ((if (odeint step yinit x).length ≠ x.length
          then List.replicate yinit.length (List.replicate x.length (none : Option ℚ))
          else transposeD yinit.length (odeint step yinit x)).headD [])
        else Sum.inr (if (odeint step yinit x).length ≠ x.length
          then List.replicate yinit.length (List.replicate x.length (none : Option ℚ))
          else transposeD yinit.length (odeint step yinit x))) := rfl
  have hd1 : ∀ rows : List (List (Option ℚ)),
      transposeD 1 rows = [rows.map (fun r => r.getD 0 none)] := by
    intro rows
    simp [transposeD, List.range_succ]
  rw [hdef]
  by_cases hdim : yinit.length = 1 <;>
    by_cases hlen : (odeint step yinit x).length = x.length
  · rw [if_pos hdim, if_neg (not_not_intro hlen), hdim, hd1]
    exact ⟨by simp [resultCols, hlen], fun hc => absurd hlen hc, by simp [hdim]⟩
  · rw [if_pos hdim, if_pos hlen, hdim]
    refine ⟨by simp [resultCols, List.replicate_succ], fun _ => ?_, by simp [hdim]⟩
    simp [resultAllNaN, List.replicate_succ, List.all_eq_true, List.mem_replicate]
  · rw [if_neg hdim, if_neg (not_not_intro hlen)]
    refine ⟨?_, fun hc => absurd hlen hc, by simp [hdim]⟩
    simp [resultCols, transposeD, List.all_eq_true, hlen]
  · rw [if_neg hdim, if_pos hlen]
    refine ⟨?_, fun _ => ?_, by simp [hdim]⟩
    · simp [resultCols, List.all_eq_true, List.mem_replicate]
    · simp [resultAllNaN, List.all_eq_true, List.mem_replicate]

/-- Witness for C9 on a two-point abscissa list with a one-dimensional
initial value and an always-successful stepper. -/
theorem claim_C9_witness :
    resultCols ([0, 1] : List ℚ).length (integrate stepW [some 1] [0, 1]) = true ∧
    ((odeint stepW [some 1] [0, 1]).length ≠ ([0, 1] : List ℚ).length →
      resultAllNaN (integrate stepW [some 1] [0, 1]) = true) ∧
    ((integrate stepW [some 1] [0, 1]).isLeft = true ↔
      ([some 1] : List (Option ℚ)).length = 1) :=
  claim_C9_integrate stepW [some 1] [0, 1] (by simp)

/-- The cycle graph has no self loops. -/
theorem cycleAdj_self (N i : Nat) : cycleAdj N i i = 0 := by
  simp [cycleAdj]

/-- Cycle-graph adjacency entries are zero or one. -/
theorem cycleAdj_cases (N i j : Nat) : cycleAdj N i j = 0 ∨ cycleAdj N i j = 1 := by
  unfold cycleAdj
  split <;> simp

/-- The degree of a node equals the sum of its adjacency row without the
diagonal. -/
theorem sum_erase_cycleAdj (N i : Nat) (hi : i < N) :
    ∑ j ∈ (Finset.range N).erase i, cycleAdj N i j = cycleDeg N i := by
  have hmem : i ∈ Finset.range N := Finset.mem_range.mpr hi
  rw [cycleDeg, ← Finset.add_sum_erase (Finset.range N) (fun j => cycleAdj N i j) hmem]
  simp [cycleAdj_self]

/-- Rows of the pairwise coupling block matrix sum to zero. -/
theorem kron_rowsum (N i : Nat) (heven : N % 2 = 0) (hi : i < N) :
    rowSum N (fun a b => kron_eye_pair a b) i = 0 := by
  have hsub : ({2 * (i / 2), 2 * (i / 2) + 1} : Finset Nat) ⊆ Finset.range N := by
    intro j hj
    simp only [Finset.mem_insert, Finset.mem_singleton] at hj
    rcases hj with h | h <;> subst h <;> exact Finset.mem_range.mpr (by omega)
  have hzero : ∀ j ∈ Finset.range N,
      j ∉ ({2 * (i / 2), 2 * (i / 2) + 1} : Finset Nat) → kron_eye_pair i j = 0 := by
    intro j _ hj
    simp only [Finset.mem_insert, Finset.mem_singleton] at hj
    have hdiv : i / 2 ≠ j / 2 := by omega
    simp [kron_eye_pair, eyeEntry, hdiv]
  have hne : (2 * (i / 2) : Nat) ≠ 2 * (i / 2) + 1 := by omega
  rw [rowSum, ← Finset.sum_subset hsub hzero, Finset.sum_pair hne]
  have e1 : (2 * (i / 2)) / 2 = i / 2 := by omega
  have e2 : (2 * (i / 2)) % 2 = 0 := by omega
  have e3 : (2 * (i / 2) + 1) / 2 = i / 2 := by omega
  have e4 : (2 * (i / 2) + 1) % 2 = 1 := by omega
  simp only [kron_eye_pair]
  rw [e1, e2, e3, e4]
  rcases Nat.mod_two_eq_zero_or_one i with h | h <;> simp [h, eyeEntry, pairBlock]

/-- A node of the pairwise coupling matrix has exactly its block partner as
neighbour, and diagonal entry minus one. -/
theorem kron_neighbour (N i : Nat) (heven : N % 2 = 0) (hi : i < N) :
    (fun a b => kron_eye_pair a b) i i =
      -(neighbourCount N (fun a b => kron_eye_pair a b) i : Int) := by
  have hval : ∀ j, kron_eye_pair i j ≠ 0 ↔ i / 2 = j / 2 := by
    intro j
    unfold kron_eye_pair eyeEntry pairBlock
    by_cases h1 : i / 2 = j / 2 <;> by_cases h2 : i % 2 = j % 2 <;> simp [h1, h2]
  have hcong : Finset.filter (fun j => j ≠ i ∧ kron_eye_pair i j ≠ 0) (Finset.range N) =
      Finset.filter (fun j => j ≠ i ∧ i / 2 = j / 2) (Finset.range N) :=
    Finset.filter_congr (fun j _ => and_congr_right (fun _ => hval j))
  have hcard : neighbourCount N (fun a b => kron_eye_pair a b) i = 1 := by
    rw [neighbourCount, hcong]
    rcases Nat.mod_two_eq_zero_or_one i with hp | hp
    · have hone : Finset.filter (fun j => j ≠ i ∧ i / 2 = j / 2) (Finset.range N) =
          {i + 1} := by
        ext j
        simp only [Finset.mem_filter, Finset.mem_range, Finset.mem_singleton]
        omega
      rw [hone, Finset.card_singleton]
    · have hone : Finset.filter (fun j => j ≠ i ∧ i / 2 = j / 2) (Finset.range N) =
          {i - 1} := by
        ext j
        simp only [Finset.mem_filter, Finset.mem_range, Finset.mem_singleton]
        omega
      rw [hone, Finset.card_singleton]
  rw [hcard]
  simp [kron_eye_pair, eyeEntry, pairBlock]

/-- Rows of the circular-array coupling matrix sum to zero. -/
theorem circ_rowsum (N i : Nat) (hi : i < N) :
    rowSum N (circular_array_coupling N) i = 0 := by
  have hmem : i ∈ Finset.range N := Finset.mem_range.mpr hi
  rw [rowSum, ← Finset.add_sum_erase _ _ hmem]
  have h1 : circular_array_coupling N i i = -cycleDeg N i := by
    simp [circular_array_coupling, cycleLaplacian]
  have h2 : ∑ j ∈ (Finset.range N).erase i, circular_array_coupling N i j =
      ∑ j ∈ (Finset.range N).erase i, cycleAdj N i j := by
    refine Finset.sum_congr rfl fun j hj => ?_
    have hij : i ≠ j := fun e => (Finset.mem_erase.mp hj).1 e.symm
    simp [circular_array_coupling, cycleLaplacian, hij]
  rw [h1, h2, sum_erase_cycleAdj N i hi]
  ring

/-- The diagonal of the circular-array coupling matrix is minus the number
of neighbours in the cycle graph. -/
theorem circ_neighbour (N i : Nat) (hi : i < N) :
    circular_array_coupling N i i =
      -(neighbourCount N (circular_array_coupling N) i : Int) := by
  have hval : ∀ j, j ≠ i → (circular_array_coupling N i j ≠ 0 ↔ cycleAdj N i j = 1) := by
    intro j hj
    have hij : i ≠ j := fun e => hj e.symm
    have hoff : circular_array_coupling N i j = cycleAdj N i j := by
      simp [circular_array_coupling, cycleLaplacian, hij]
    rw [hoff]
    rcases cycleAdj_cases N i j with h | h <;> simp [h]
  have hcong : Finset.filter (fun j => j ≠ i ∧ circular_array_coupling N i j ≠ 0)
      (Finset.range N) = Finset.filter (fun j => cycleAdj N i j = 1) (Finset.range N) := by
    refine Finset.filter_congr fun j _ => ?_
    constructor
    · rintro ⟨hj, hc⟩
      exact (hval j hj).mp hc
    · intro hc
      have hj : j ≠ i := by
        intro e
        subst e
        rw [cycleAdj_self] at hc
        exact absurd hc (by decide)
      exact ⟨hj, (hval j hj).mpr hc⟩
  have hdeg : cycleDeg N i =
      ((Finset.range N).filter (fun j => cycleAdj N i j = 1)).card := by
    rw [cycleDeg]
    have hrw : ∀ j ∈ Finset.range N,
        cycleAdj N i j = if cycleAdj N i j = 1 then 1 else 0 := by
      intro j _
      rcases cycleAdj_cases N i j with h | h <;> simp [h]
    rw [Finset.sum_congr rfl hrw, Finset.sum_boole]
  have hdiag : circular_array_coupling N i i = -cycleDeg N i := by
    simp [circular_array_coupling, cycleLaplacian]
  rw [hdiag, neighbourCount, hcong, hdeg]

/-- C7: for `N ≥ 1` and any row `i < N`, the matrices of `global_coupling`,
`pairwise_coupling` (whenever it returns, i.e. for even `N`), and
`circular_array_coupling` have rows summing to zero and diagonal entries
equal to minus the number of coupled neighbours of the node; in particular
`global_coupling(N)` has `-(N - 1)` on the diagonal and `1` elsewhere. -/
theorem claim_C7_laplacian (N i : Nat) (hN : 1 ≤ N) (hi : i < N) :
    rowSum N (global_coupling N) i = 0 ∧
    global_coupling N i i = -(neighbourCount N (global_coupling N) i : Int) ∧
    global_coupling N i i = -((N : Int) - 1) ∧
    (∀ j, j < N → j ≠ i → global_coupling N i j = 1) ∧
    (∀ A, pairwise_coupling N = some A →
      rowSum N A i = 0 ∧ A i i = -(neighbourCount N A i : Int)) ∧
    rowSum N (circular_array_coupling N) i = 0 ∧
    circular_array_coupling N i i =
      -(neighbourCount N (circular_array_coupling N) i : Int) := by
  have hmem : i ∈ Finset.range N := Finset.mem_range.mpr hi
  have hglobal_count : neighbourCount N (global_coupling N) i = N - 1 := by
    rw [neighbourCount]
    have hcong : Finset.filter (fun j => j ≠ i ∧ global_coupling N i j ≠ 0)
        (Finset.range N) = Finset.filter (fun j => j ≠ i) (Finset.range N) := by
      refine Finset.filter_congr fun j _ => ?_
      constructor
      · rintro ⟨hj, _⟩
        exact hj
      · intro hj
        have hij : i ≠ j := fun e => hj e.symm
        exact ⟨hj, by simp [global_coupling, hij]⟩
    rw [hcong, Finset.filter_ne', Finset.card_erase_of_mem hmem, Finset.card_range]
  refine ⟨?_, ?_, by simp [global_coupling], ?_, ?_, circ_rowsum N i hi, circ_neighbour N i hi⟩
  · rw [rowSum, ← Finset.add_sum_erase _ _ hmem]
    have h2 : ∑ j ∈ (Finset.range N).erase i, global_coupling N i j =
        ∑ j ∈ (Finset.range N).erase i, (1 : Int) := by
      refine Finset.sum_congr rfl fun j hj => ?_
      have hij : i ≠ j := fun e => (Finset.mem_erase.mp hj).1 e.symm
      simp [global_coupling, hij]
    rw [h2, Finset.sum_const, Finset.card_erase_of_mem hmem, Finset.card_range,
      nsmul_eq_mul, mul_one]
    have hd : global_coupling N i i = -((N : Int) - 1) := by simp [global_coupling]
    rw [hd]
    omega
  · rw [hglobal_count]
    have hd : global_coupling N i i = -((N : Int) - 1) := by simp [global_coupling]
    rw [hd]
    omega
  · intro j _ hj
    have hij : i ≠ j := fun e => hj e.symm
    simp [global_coupling, hij]
  · intro A hA
    unfold pairwise_coupling at hA
    by_cases heven : N % 2 = 0
    · rw [if_pos heven] at hA
      injection hA with hA
      subst hA
      exact ⟨kron_rowsum N i heven hi, kron_neighbour N i heven hi⟩
    · rw [if_neg heven] at hA
      exact absurd hA (by simp)

/-- Witness for C7 at `N = 4`, row `i = 1`. -/
theorem claim_C7_witness :
    rowSum 4 (global_coupling 4) 1 = 0 ∧
    global_coupling 4 1 1 = -(neighbourCount 4 (global_coupling 4) 1 : Int) ∧
    global_coupling 4 1 1 = -((4 : Int) - 1) ∧
    global_coupling 4 1 0 = 1 ∧
    (rowSum 4 (fun a b => kron_eye_pair a b) 1 = 0 ∧
      (fun a b => kron_eye_pair a b) 1 1 =
        -(neighbourCount 4 (fun a b => kron_eye_pair a b) 1 : Int)) ∧
    rowSum 4 (circular_array_coupling 4) 1 = 0 ∧
    circular_array_coupling 4 1 1 =
      -(neighbourCount 4 (circular_array_coupling 4) 1 : Int) := by
  have h := claim_C7_laplacian 4 1 (by decide) (by decide)
  exact ⟨h.1, h.2.1, h.2.2.1, h.2.2.2.1 0 (by decide) (by decide),
    h.2.2.2.2.1 (fun a b => kron_eye_pair a b) rfl, h.2.2.2.2.2.1, h.2.2.2.2.2.2⟩

/-- Python's floored modulo vanishes exactly on multiples (also at modulus
zero, where `fmod a 0 = a`). -/
theorem fmod_eq_zero_iff_dvd (a b : Int) : Int.fmod a b = 0 ↔ b ∣ a := by
  constructor
  · intro h
    have hab := Int.fmod_add_fdiv a b
    rw [h, zero_add] at hab
    exact ⟨a.fdiv b, hab.symm⟩
  · rintro ⟨c, rfl⟩
    exact Int.mul_fmod_right b c

/-- Counterexample to C5 as stated: with a checkpoint file set,
`checkpoint_frequency` the int `0` and `step_count = 0` divisible by it,
`_update` raises `ZeroDivisionError` instead of writing a checkpoint. -/
theorem claim_C5_cex :
    App.update appW0 = .error .zeroDivisionError ∧
    App.valid_checkpointing appW0 = true ∧
    appW0.args.checkpoint_frequency = some 0 ∧
    (0 : Int) ∣ (appW0.runner.step_count : Int) :=
  ⟨rfl, rfl, rfl, ⟨0, rfl⟩⟩

/-- C5 (amended): at an `_update` a checkpoint is written if and only if the
checkpoint file is set, `checkpoint_frequency` is an int `k`, and `k`
divides `step_count`; no checkpoint is written otherwise; and the update
raises `ZeroDivisionError` exactly when checkpointing is valid with
frequency the int `0` (in which case nothing is written). -/
theorem claim_C5_amended {Pop R : Type} (s s2 : AppState Pop R) :
    ((App.update s).isOk = false ↔
      App.valid_checkpointing s = true ∧ s.args.checkpoint_frequency = some 0) ∧
    (App.update s = .ok s2 →
      ((s2.files.length = s.files.length + 1 ↔
        s.checkpoint_file.isSome = true ∧
          ∃ k, s.args.checkpoint_frequency = some k ∧ k ∣ (s.runner.step_count : Int)) ∧
       (s2.files.length ≠ s.files.length + 1 → s2.files = s.files))) := by
  obtain ⟨args, runner, cfile, pfs, ini, grng, files⟩ := s
  obtain ⟨ps, ng, seed, freq⟩ := args
  cases cfile with
  | none =>
    refine ⟨by simp [App.update, App.valid_checkpointing, Except.isOk, Except.toBool], fun hok => ?_⟩
    have h2 := hok
    simp [App.update, App.valid_checkpointing] at h2
    subst h2
    simp
  | some f =>
    cases freq with
    | none =>
      refine ⟨by simp [App.update, App.valid_checkpointing, Except.isOk, Except.toBool], fun hok => ?_⟩
      have h2 := hok
      simp [App.update, App.valid_checkpointing] at h2
      subst h2
      simp
    | some k =>
      by_cases hk : k = 0
      · subst hk
        refine ⟨by simp [App.update, App.valid_checkpointing, Except.isOk, Except.toBool], fun hok => ?_⟩
        have h2 := hok
        simp [App.update, App.valid_checkpointing] at h2
      · by_cases hm : Int.fmod (runner.step_count : Int) k = 0
        · refine ⟨by simp [App.update, App.valid_checkpointing, Except.isOk, Except.toBool, hk, hm],
            fun hok => ?_⟩
          have h2 := hok
          simp [App.update, App.valid_checkpointing, App.checkpoint, safe, hk, hm] at h2
          subst h2
          constructor
          · constructor
            · intro _
              exact ⟨rfl, k, rfl, (fmod_eq_zero_iff_dvd _ _).mp hm⟩
            · intro _
              simp
          · intro hne
            exact absurd rfl hne
        · refine ⟨by simp [App.update, App.valid_checkpointing, Except.isOk, Except.toBool, hk, hm],
            fun hok => ?_⟩
          have h2 := hok
          simp [App.update, App.valid_checkpointing, hk, hm] at h2
          subst h2
          constructor
          · constructor
            · intro hlen
              exact absurd hlen (by simp)
            · rintro ⟨-, k2, hk2, hdvd⟩
              injection hk2 with hk2
              subst hk2
              exact absurd ((fmod_eq_zero_iff_dvd _ _).mpr hdvd) hm
          · intro _
            rfl

/-- Witness for C5 (amended): frequency 2 at step count 0 writes exactly one
checkpoint. -/
theorem claim_C5_witness :
    ((App.update appW2).isOk = false ↔
      App.valid_checkpointing appW2 = true ∧
        appW2.args.checkpoint_frequency = some 0) ∧
    ((appUpd2.files.length = appW2.files.length + 1 ↔
        appW2.checkpoint_file.isSome = true ∧
          ∃ k, appW2.args.checkpoint_frequency = some k ∧
            k ∣ (appW2.runner.step_count : Int)) ∧
      (appUpd2.files.length ≠ appW2.files.length + 1 →
        appUpd2.files = appW2.files)) :=
  ⟨(claim_C5_amended appW2 appUpd2).1, (claim_C5_amended appW2 appUpd2).2 rfl⟩

/-- When checkpointing cannot divide by zero, `Application._update` succeeds
and changes neither the runner, the args, the global generator state, the
checkpoint file nor the initialized flag. -/
theorem update_ok_exists {Pop R : Type} (s : AppState Pop R)
    (h : s.checkpoint_file.isSome = true → s.args.checkpoint_frequency ≠ some 0) :
    ∃ t, App.update s = .ok t ∧ t.runner = s.runner ∧ t.args = s.args ∧
      t.grng = s.grng ∧ t.checkpoint_file = s.checkpoint_file ∧
      t.initialized = s.initialized := by
  obtain ⟨args, runner, cfile, pfs, ini, grng, files⟩ := s
  obtain ⟨ps, ng, seed, freq⟩ := args
  cases cfile with
  | none => exact ⟨_, rfl, rfl, rfl, rfl, rfl, rfl⟩
  | some f =>
    cases freq with
    | none => exact ⟨_, rfl, rfl, rfl, rfl, rfl, rfl⟩
    | some k =>
      have hk : k ≠ 0 := fun e => (h rfl) (by rw [e])
      by_cases hm : Int.fmod (runner.step_count : Int) k = 0
      · exact ⟨⟨⟨ps, ng, seed, some k⟩, runner, some f, pfs ++ [runner.halloffame], ini, grng,
          (f, ⟨⟨ps, ng, seed, some k⟩, runner, grng, pfs ++ [runner.halloffame]⟩) :: files⟩,
          by simp [App.update, App.valid_checkpointing, App.checkpoint, safe, hk, hm],
          rfl, rfl, rfl, rfl, rfl⟩
      · exact ⟨⟨⟨ps, ng, seed, some k⟩, runner, some f, pfs ++ [runner.halloffame], ini, grng,
          files⟩,
          by simp [App.update, App.valid_checkpointing, hk, hm],
          rfl, rfl, rfl, rfl, rfl⟩

/-- With the default (always false) break condition and an adequate fuel, the
run loop executes exactly `num_generations - step_count` iterations,
finishing with `step_count = num_generations`, and preserves the global
generator state, the args, the checkpoint file and the initialized flag. -/
theorem runLoop_ok {Pop R : Type} (ev : Pop → R → Pop × R) :
    ∀ (fuel : Nat) (s : AppState Pop R) (its : Nat),
      s.runner.step_count ≤ s.args.num_generations →
      s.args.num_generations - s.runner.step_count < fuel →
      (s.checkpoint_file.isSome = true → s.args.checkpoint_frequency ≠ some 0) →
      ∃ t : AppState Pop R,
        App.runLoop ev (fun _ => false) fuel s its =
          .ok (t, its + (s.args.num_generations - s.runner.step_count)) ∧
        t.runner.step_count = t.args.num_generations ∧
        t.grng = s.grng ∧ t.args = s.args ∧
        t.checkpoint_file = s.checkpoint_file ∧ t.initialized = s.initialized := by
  intro fuel
  induction fuel with
  | zero =>
    intro s its h1 h2 h3
    omega
  | succ fuel ih =>
    intro s its h1 h2 h3
    by_cases hc : s.runner.step_count < s.args.num_generations
    · obtain ⟨t1, ht1, htr, hta, htg, htc, hti⟩ := update_ok_exists
        ({ s with runner := (GPRunner.step ev s.runner s.grng).1,
                  grng := (GPRunner.step ev s.runner s.grng).2 } : AppState Pop R) h3
      have e1 : t1.runner.step_count = s.runner.step_count + 1 := by
        rw [htr]
        all_goals rfl
      have e2 : t1.args.num_generations = s.args.num_generations := by
        rw [hta]
      obtain ⟨t, ht, hts, htg2, hta2, htc2, hti2⟩ := ih t1 (its + 1)
        (by omega) (by omega) (by rw [htc, hta]; exact h3)
      refine ⟨t, ?_, hts, ?_, ?_, ?_, ?_⟩
      · simp only [App.runLoop]
        rw [if_pos ⟨hc, trivial⟩, ht1]
        show App.runLoop ev (fun _ => false) fuel t1 (its + 1) =
          Except.ok (t, its + (s.args.num_generations - s.runner.step_count))
        rw [ht]
        have harith : its + 1 + (t1.args.num_generations - t1.runner.step_count) =
            its + (s.args.num_generations - s.runner.step_count) := by omega
        rw [harith]
      · rw [htg2, htg]
        all_goals rfl
      · rw [hta2, hta]
      · rw [htc2, htc]
      · rw [hti2, hti]
    · have hnc : ¬(s.runner.step_count < s.args.num_generations ∧ True) := by
        rintro ⟨hlt, -⟩
        omega
      have hz : s.args.num_generations - s.runner.step_count = 0 := by omega
      refine ⟨s, ?_, by omega, rfl, rfl, rfl, rfl⟩
      simp only [App.runLoop]
      rw [if_neg hnc, hz]
      all_goals rfl

/-- Counterexample to C1 as stated: a configuration with `pop_size ≥ 1`, a
not-yet-initialized application and no break condition on which `run()`
raises `ZeroDivisionError` (checkpoint file set, `checkpoint_frequency` the
int `0`) instead of returning `num_generations + 1` iterations. -/
theorem claim_C1_cex :
    1 ≤ appW0run.args.pop_size ∧ appW0run.initialized = false ∧
    App.run evW cpW sfW (fun _ => false) appW0run = .error .zeroDivisionError :=
  ⟨by decide, rfl, rfl⟩

/-- C1 (amended): for every configuration with `pop_size ≥ 1` on which
checkpointing cannot divide by zero (no checkpoint file, or a frequency
other than the int `0`), `run()` on a not-yet-initialized application with
no break condition seeds the global generator with `args.seed`, initializes
the runner, steps until `step_count` equals `num_generations`, and returns
`num_generations + 1` iterations; with `pop_size < 1` it returns `0` and
changes nothing. -/
theorem claim_C1_amended {Pop R : Type} (ev : Pop → R → Pop × R)
    (cp : Nat → R → Pop × R) (sf : Nat → R) (s : AppState Pop R) :
    (1 ≤ s.args.pop_size → s.initialized = false →
      (s.checkpoint_file.isSome = true → s.args.checkpoint_frequency ≠ some 0) →
      Except.map (fun p => p.2) (App.run ev cp sf (fun _ => false) s) =
        .ok (s.args.num_generations + 1) ∧
      Except.map (fun p => p.1.runner.step_count)
        (App.run ev cp sf (fun _ => false) s) = .ok s.args.num_generations ∧
      Except.map (fun p => p.1.grng) (App.run ev cp sf (fun _ => false) s) =
        .ok (sf s.args.seed)) ∧
    (s.args.pop_size < 1 → App.run ev cp sf (fun _ => false) s = .ok (s, 0)) := by
  obtain ⟨⟨ps, ng, seed, freq⟩, runner, cfile, pfs, ini, grng0, files⟩ := s
  constructor
  · intro hpop hini hfreq
    subst hini
    have hpop2 : 1 ≤ ps := hpop
    have hnlt : ¬ ps < 1 := by omega
    obtain ⟨t1, ht1, htr, hta, htg, htc, hti⟩ := update_ok_exists
      (⟨⟨ps, ng, seed, freq⟩, (GPRunner.init cp ps runner (sf seed)).1, cfile, pfs, false,
        (GPRunner.init cp ps runner (sf seed)).2, files⟩ : AppState Pop R) hfreq
    have hrun1 : App.run ev cp sf (fun _ => false)
        ⟨⟨ps, ng, seed, freq⟩, runner, cfile, pfs, false, grng0, files⟩ =
        App.runLoop ev (fun _ => false) (ng + 1) t1 1 := by
      have hbase : App.run ev cp sf (fun _ => false)
          ⟨⟨ps, ng, seed, freq⟩, runner, cfile, pfs, false, grng0, files⟩ =
          (match App.update (⟨⟨ps, ng, seed, freq⟩,
              (GPRunner.init cp ps runner (sf seed)).1, cfile, pfs, false,
              (GPRunner.init cp ps runner (sf seed)).2, files⟩ : AppState Pop R) with
            | .error e => .error e
            | .ok s2 => App.runLoop ev (fun _ => false) (ng + 1) s2 1) := by
        unfold App.run
        rw [if_neg hnlt]
        all_goals rfl
      rw [hbase, ht1]
    have e1 : t1.runner.step_count = 0 := by
      rw [htr]
      all_goals rfl
    have e2 : t1.args.num_generations = ng := by
      rw [hta]
    have e3 : t1.grng = sf seed := by
      rw [htg]
      all_goals rfl
    obtain ⟨t, ht, hts, htg2, hta2, htc2, hti2⟩ := runLoop_ok ev (ng + 1) t1 1
      (by omega) (by omega) (by rw [htc, hta]; exact hfreq)
    have harith : 1 + (t1.args.num_generations - t1.runner.step_count) = ng + 1 := by
      omega
    rw [harith] at ht
    have hfin1 : t.runner.step_count = ng := by
      rw [hts, hta2, hta]
    have hfin2 : t.grng = sf seed := by
      rw [htg2, e3]
    refine ⟨?_, ?_, ?_⟩ <;> rw [hrun1, ht] <;> simp [Except.map, hfin1, hfin2]
  · intro hlt
    unfold App.run
    rw [if_pos hlt]

/-- Witness for C1 (amended) on a concrete configuration with `pop_size = 2`,
`num_generations = 3`, frequency 1, and on one with `pop_size = 0`. -/
theorem claim_C1_witness :
    Except.map (fun p => p.2) (App.run evW cpW sfW (fun _ => false) appW) =
      .ok (appW.args.num_generations + 1) ∧
    Except.map (fun p => p.1.runner.step_count)
      (App.run evW cpW sfW (fun _ => false) appW) = .ok appW.args.num_generations ∧
    Except.map (fun p => p.1.grng) (App.run evW cpW sfW (fun _ => false) appW) =
      .ok (sfW appW.args.seed) ∧
    App.run evW cpW sfW (fun _ => false) appP0 = .ok (appP0, 0) := by
  have ha := (claim_C1_amended evW cpW sfW appW).1 (by decide) rfl (by decide)
  have hb := (claim_C1_amended evW cpW sfW appP0).2 (by decide)
  exact ⟨ha.1, ha.2.1, ha.2.2, hb⟩

/-- C4: checkpointing round-trips: `load` after `safe` returns the stored
keyword-argument mapping unchanged; `Application.from_checkpoint` after
`Application.checkpoint` reconstructs an application with the saved args,
runner and pareto fronts, restores the saved global random state, and marks
the application initialized, so that a subsequent `run()` with `pop_size ≥
1` goes straight to the evolution loop without re-initializing. -/
theorem claim_C4_checkpoint_roundtrip {Pop R : Type} (ev : Pop → R → Pop × R)
    (cp : Nat → R → Pop × R) (sf : Nat → R) (brk : AppState Pop R → Bool) :
    (∀ (α : Type) (fs : List (String × α)) (f : String) (kw : α),
      load (safe fs f kw) f = some kw) ∧
    (∀ (app : AppState Pop R) (f : String), app.checkpoint_file = some f →
      Application.from_checkpoint (App.checkpoint app).files f =
        some { args := app.args, runner := app.runner, checkpoint_file := some f,
               pareto_fronts := app.pareto_fronts, initialized := true,
               grng := app.grng, files := (App.checkpoint app).files }) ∧
    (∀ (s : AppState Pop R), s.initialized = true → 1 ≤ s.args.pop_size →
      App.run ev cp sf brk s =
        App.runLoop ev brk (s.args.num_generations + 1) s 0) := by
  refine ⟨?_, ?_, ?_⟩
  · intro α fs f kw
    simp [load, safe]
  · intro app f hf
    obtain ⟨args, runner, cfile, pfs, ini, grng, files⟩ := app
    have hf2 : cfile = some f := hf
    subst hf2
    simp [App.checkpoint, Application.from_checkpoint, load, safe]
  · intro s hini hpop
    obtain ⟨⟨ps, ng, seed, freq⟩, runner, cfile, pfs, ini, grng, files⟩ := s
    have hini2 : ini = true := hini
    subst hini2
    have hpop2 : 1 ≤ ps := hpop
    have hnlt : ¬ ps < 1 := by omega
    unfold App.run
    rw [if_neg hnlt]
    all_goals rfl

/-- Witness for C4 at a concrete initialized application with a written
checkpoint. -/
theorem claim_C4_witness :
    load (safe ([] : List (String × Nat)) cpFileW 7) cpFileW = some 7 ∧
    Application.from_checkpoint (App.checkpoint appW2).files cpFileW =
      some { args := appW2.args, runner := appW2.runner,
             checkpoint_file := some cpFileW, pareto_fronts := appW2.pareto_fronts,
             initialized := true, grng := appW2.grng,
             files := (App.checkpoint appW2).files } ∧
    App.run evW cpW sfW brkW appW2 =
      App.runLoop evW brkW (appW2.args.num_generations + 1) appW2 0 := by
  have h := claim_C4_checkpoint_roundtrip evW cpW sfW brkW
  exact ⟨h.1 Nat [] cpFileW 7, h.2.1 appW2 cpFileW rfl, h.2.2 appW2 rfl (by decide)⟩

/-- Witness for C10 at `N = 3` (assertion fails) and `N = 4`. -/
theorem claim_C10_witness :
    (pairwise_coupling 3 = none ↔ 3 % 2 ≠ 0) ∧
    kron_eye_pair 1 2 = 0 ∧
    kron_eye_pair 2 3 = pairBlock (2 % 2) (3 % 2) :=
  ⟨(claim_C10_pairwise 3).1,
   (((claim_C10_pairwise 4).2 rfl).2 1 2 (by decide) (by decide)).1 (by decide),
   (((claim_C10_pairwise 4).2 rfl).2 2 3 (by decide) (by decide)).2 (by decide)⟩

end Glyph
